import Mathlib

/-!
Verification development for the `nao-looking-and-pointing` HRI experiment
controller (`src/hri_interaction.py`) and its offline log analysis
(`src/analysis/parseRosbags.py`).

Python state is embedded shallowly: the controller's mutable dictionaries
become association lists, floating-point quantities become exact rationals,
raising code returns `Except`, and each callback/phase becomes a pure state
transformer translated line by line from the source.
-/

namespace HRI

/-- Errors raised by the embedded Python code paths. -/
inductive PyError where
  | assertionFailed
  | keyError
  | typeError
  | ioError
deriving DecidableEq, Repr

/-- A 3D point; positions are modelled exactly over `ℚ`.  A Python list
`[c0, c1, c2]` of coordinates is embedded as `⟨c0, c1, c2⟩`. -/
structure Vec3 where
  x : ℚ
  y : ℚ
  z : ℚ
deriving DecidableEq, Repr

/-- Modelled from the spec: the `lego.Lego` class is imported by
`hri_interaction.py` but its module is not under `src/`.  Per spec §3 a
TrackedObject carries an integer id, a robot-frame position, upper/lower
color threshold triples, and an ordered sequence of descriptor words; the
constructor `Lego(idnum, loc, colorUpper, colorLower, words)` stores its
arguments in the corresponding fields. -/
structure Lego where
  idnum : Int
  loc : Vec3
  colorUpper : List ℚ
  colorLower : List ℚ
  words : List String
deriving DecidableEq, Repr

/-- Association-list lookup, embedding Python `d[k]` / `k in d`. -/
def alookup {κ β : Type} [DecidableEq κ] : List (κ × β) → κ → Option β
  | [], _ => none
  | (k, v) :: rest, i => if k = i then some v else alookup rest i

/-- Association-list update, embedding Python `d[k] = v` (overwrites an
existing binding, otherwise appends a new one). -/
def aset {κ β : Type} [DecidableEq κ] : List (κ × β) → κ → β → List (κ × β)
  | [], i, v => [(i, v)]
  | (k, w) :: rest, i, v =>
      if k = i then (k, v) :: rest else (k, w) :: aset rest i v

/-- `originTranslationVector = [0, -0.4, 0]` from `convertCoords`
(hard-coded displacement of the Kinect origin in the Nao frame). -/
def originTranslationVector : Vec3 := ⟨0, -(2/5 : ℚ), 0⟩

/-- `InteractionController.convertCoords`: Kinect frame → Nao frame.
The source computes
`x = kinectCoords[2] - originTranslationVector[2]`,
`y = kinectCoords[0] - originTranslationVector[0]`,
`z = kinectCoords[1] - originTranslationVector[1]`. -/
def convertCoords (kinectCoords : Vec3) : Vec3 :=
  { x := kinectCoords.z - originTranslationVector.z
    y := kinectCoords.x - originTranslationVector.x
    z := kinectCoords.y - originTranslationVector.y }

/-- Inverse of `convertCoords`, defined here (not in the source) to witness
the spec's invertibility claim. -/
def invConvertCoords (naoCoords : Vec3) : Vec3 :=
  { x := naoCoords.y + originTranslationVector.x
    y := naoCoords.z + originTranslationVector.y
    z := naoCoords.x + originTranslationVector.z }

/-- The ROS `ObjectsInfo` message consumed by `objectsInfoCallback`. -/
structure ObjectsInfo where
  object_id : Int
  pos : Vec3
  color_upper : List ℚ
  color_lower : List ℚ
deriving DecidableEq, Repr

/-- `InteractionController.objectsInfoCallback` acting on `self.objdict`:
convert the position, update the stored object's location when it changed,
or insert a fresh `Lego` with empty descriptor words. -/
def objectsInfoCallback (objdict : List (Int × Lego)) (objectMsg : ObjectsInfo) :
    List (Int × Lego) :=
  let obj_pos := convertCoords objectMsg.pos
  match alookup objdict objectMsg.object_id with
  | some o =>
      if ¬(obj_pos = o.loc) then
        aset objdict objectMsg.object_id { o with loc := obj_pos }
      else objdict
  | none =>
      aset objdict objectMsg.object_id
        ⟨objectMsg.object_id, obj_pos, objectMsg.color_upper,
          objectMsg.color_lower, []⟩

/-- The last `ObjectsInfo` message of a sequence that updates object `i`. -/
def lastPosUpdate (msgs : List ObjectsInfo) (i : Int) : Option ObjectsInfo :=
  (msgs.filter (fun m => m.object_id = i)).getLast?

/-- `actOutReference` wait computation: the source sets
`totaltime = starttime + 5` and `waittime = totaltime - time()`; with
`elapsed` the dispatch overhead of the two non-blocking calls, this is
`5 - elapsed`.  There is no clamping in the source. -/
def actOutReferenceWaittime (elapsed : ℚ) : ℚ := 5 - elapsed

/-- Python's `time.sleep`, which raises on a negative argument. -/
def pySleep (t : ℚ) : Except PyError Unit :=
  if t < 0 then Except.error PyError.ioError else Except.ok ()

/-- `InteractionController.actOutReference` timing: returns the total
wall-clock duration (dispatch overhead plus sleep) or the error raised by
`sleep` on a negative wait. -/
def actOutReference (elapsed : ℚ) : Except PyError ℚ :=
  let waittime := actOutReferenceWaittime elapsed
  match pySleep waittime with
  | Except.error e => Except.error e
  | Except.ok _ => Except.ok (elapsed + waittime)

/-- The ROS `GazePointInfo` message consumed by `gazepointInfoCallback`. -/
structure GazePointInfo where
  type : String
  target_id : Int
  scores : List ℚ
deriving DecidableEq, Repr

/-- The controller's two score dictionaries (`self.gazescores`,
`self.pointscores`). -/
structure Scores where
  gazescores : List (Int × List ℚ)
  pointscores : List (Int × List ℚ)
deriving DecidableEq, Repr

/-- `InteractionController.gazepointInfoCallback`: record the score list for
the message's target under the message's type; unrecognized types are only
logged. -/
def gazepointInfoCallback (s : Scores) (data : GazePointInfo) : Scores :=
  if data.type = "gaze" then
    { s with gazescores := aset s.gazescores data.target_id data.scores }
  else if data.type = "point" then
    { s with pointscores := aset s.pointscores data.target_id data.scores }
  else s

/-- The guard of `waitForGazePointScores`'s loop: Python's
`self.gazescores and self.pointscores` is truthy exactly when both
dictionaries are non-empty. -/
def scoresReady (s : Scores) : Bool :=
  !s.gazescores.isEmpty && !s.pointscores.isEmpty

/-- `InteractionController.waitForGazePointScores`: poll `scoresReady`,
sleeping between checks.  The callbacks delivered during each sleep are
modelled as one batch per loop iteration; the wait returns the state at
loop exit, or `none` if the supplied batches never make the stores ready
(the real loop would still be blocked). -/
def waitForGazePointScores (s : Scores) :
    List (List GazePointInfo) → Option Scores
  | [] => if scoresReady s then some s else none
  | b :: bs =>
      if scoresReady s then some s
      else waitForGazePointScores (b.foldl gazepointInfoCallback s) bs

/-- A character matched by `[\w']` in `re.findall(r"[\w']+", ...)` under
Python 2's default (ASCII) semantics: alphanumerics, underscore, or
apostrophe. -/
def isWordTokenChar (c : Char) : Bool :=
  c.isAlphanum || c = '_' || c = Char.ofNat 39

/-- Accumulating scanner for `wordTokens`: `acc` holds the current run of
word characters in reverse. -/
def wordTokensAux : List Char → List Char → List String
  | [], acc => if acc.isEmpty then [] else [String.mk acc.reverse]
  | c :: cs, acc =>
      if isWordTokenChar c then wordTokensAux cs (c :: acc)
      else if acc.isEmpty then wordTokensAux cs []
      else String.mk acc.reverse :: wordTokensAux cs []

/-- `re.findall(r"[\w']+", words_spoken)` from `findNVBForRef`: the maximal
runs of word characters, in order. -/
def wordTokens (words_spoken : String) : List String :=
  wordTokensAux words_spoken.data []

/-- The four nonverbal actions, as listed in `systemValidation` and in
`parseRosbags.system_validation`'s `action_list`. -/
def actionNames : List String := ["none", "look", "point", "lookandpoint"]

/-- The plausibility threshold `1/2 ≤ q`, computed on the normalized
numerator and denominator so it evaluates by kernel reduction. -/
def halfLe (q : ℚ) : Bool := decide ((q.den : Int) ≤ 2 * q.num)

/-- Modelled from the spec: `nvbModel.NVBModel.calculateNVBForRef` is
imported by `hri_interaction.py` but its module is not under `src/`.
Spec §4.4 leaves the exact scoring formula open and requires only a
deterministic total function into {none, look, point, lookandpoint} that
picks the least-ambiguous modality, defaults ties to the richer combined
action `lookandpoint`, resolves a fully-unambiguous reference to `none`,
and substitutes a neutral maximum-ambiguity default for a missing score
entry rather than raising. -/
def calculateNVBForRef (saliency_scores : List (Int × ℚ)) (target_id : Int)
    (objdict : List (Int × Lego)) (words_list : List String)
    (gazescores pointscores : List (Int × List ℚ)) : String :=
  -- number of plausible competing objects under one modality; a missing
  -- entry falls soft to maximum ambiguity (spec §4.4)
  let ambiguity : List (Int × List ℚ) → Nat := fun store =>
    match alookup store target_id with
    | none => objdict.length + 1
    | some l => l.countP (fun q => halfLe q)
  let g := ambiguity gazescores
  let p := ambiguity pointscores
  let sal := (alookup saliency_scores target_id).getD 0
  let unambiguous :=
    decide (2 ≤ words_list.length) && halfLe sal &&
      decide (g ≤ 1) && decide (p ≤ 1)
  if unambiguous then "none"
  else if g < p then "look"
  else if p < g then "point"
  else "lookandpoint"

/-- The controller state read by the selection and validation phases: the
object dictionary, the two score dictionaries, the precomputed saliency
scores, and the `nonverbalBehavior` flag. -/
structure CtrlState where
  objdict : List (Int × Lego)
  gazescores : List (Int × List ℚ)
  pointscores : List (Int × List ℚ)
  saliency_scores : List (Int × ℚ)
  nvb : Bool
deriving DecidableEq, Repr

/-- `InteractionController.findNVBForRef`: tokenize the spoken words and
call the NVB model on the current snapshot. -/
def findNVBForRef (st : CtrlState) (target_id : Int) (words_spoken : String) :
    String :=
  let words_list := wordTokens words_spoken
  calculateNVBForRef st.saliency_scores target_id st.objdict words_list
    st.gazescores st.pointscores

/-- The ROS `ScriptObjectRef` message consumed by `objectRefCallback`. -/
structure ScriptObjectRef where
  object_id : Int
  words : String
deriving DecidableEq, Repr

/-- `InteractionController.objectRefCallback`: on an unknown target id the
`KeyError` probe is caught, the failure is logged and the handler returns
without acting; otherwise the NVB action is computed (or `none` when the
`nvb` flag is off) and dispatched with the target's location.  The result
is the (unchanged) controller state paired with the dispatched
(action, location) command, if any. -/
def objectRefCallback (st : CtrlState) (objectRefMsg : ScriptObjectRef) :
    CtrlState × Option (String × Vec3) :=
  match alookup st.objdict objectRefMsg.object_id with
  | none => (st, none)
  | some target =>
      let action_type :=
        if st.nvb then findNVBForRef st objectRefMsg.object_id objectRefMsg.words
        else "none"
      (st, some (action_type, target.loc))

/-- One entry of `systemValidation`'s `action_list`:
`(act, obj.loc, words)`. -/
abbrev ActionEntry := String × Vec3 × String

/-- The loop body of `InteractionController.systemValidation` over
`self.objdict.values()`: per object, assert `len(obj.words) > 0`, take the
first descriptor word, compute the correct action via `findNVBForRef`
(collected as the `<idnum>:<action>` log lines), and append the four
`(act, obj.loc, words)` entries.  The assertion failure is the raised
`AssertionError`. -/
def systemValidationAux (st : CtrlState) :
    List (Int × Lego) → Except PyError (List (Int × String) × List ActionEntry)
  | [] => Except.ok ([], [])
  | (_, obj) :: rest =>
      if 0 < obj.words.length then
        let words := obj.words.headI
        let correct_act := findNVBForRef st obj.idnum words
        match systemValidationAux st rest with
        | Except.error e => Except.error e
        | Except.ok (log, acts) =>
            Except.ok ((obj.idnum, correct_act) :: log,
              actionNames.map (fun act => (act, obj.loc, words)) ++ acts)
      else Except.error PyError.assertionFailed

/-- The correct-action log and unshuffled action list built by
`systemValidation` before `random.shuffle`. -/
def systemValidationBuild (st : CtrlState) :
    Except PyError (List (Int × String) × List ActionEntry) :=
  systemValidationAux st st.objdict

/-- Provenance view of the action list: the same double loop kept as
(action, object) pairs instead of the projected `(act, obj.loc, words)`
tuples, used to state the once-per-pair property. -/
def actionObjectPairs (objs : List (Int × Lego)) : List (String × Lego) :=
  objs.flatMap (fun e => actionNames.map (fun act => (act, e.2)))

/-- Projection from an (action, object) pair to the stored entry. -/
def entryOfPair (p : String × Lego) : ActionEntry :=
  (p.1, p.2.loc, p.2.words.headI)

/-- Swap the elements at positions `i` and `j` of a list
(`x[i], x[j] = x[j], x[i]`); out-of-range indices leave the list
unchanged. -/
def swapL {α : Type} (l : List α) (i j : Nat) : List α :=
  match l.get? i, l.get? j with
  | some a, some b => (l.set i b).set j a
  | _, _ => l

/-- CPython's `random.shuffle` loop
`for i in reversed(range(1, len(x))): j = int(random() * (i+1)); swap(i, j)`
with the successive random draws supplied as `js`; each draw is reduced
`mod (i+1)` exactly as `int(random() * (i+1))` lands in `0..i`.  The first
argument is the current loop index `i`. -/
def pyShuffleAux {α : Type} : Nat → List α → List Nat → List α
  | 0, l, _ => l
  | _ + 1, l, [] => l
  | i + 1, l, j :: js => pyShuffleAux i (swapL l (i + 1) (j % (i + 2))) js

/-- `random.shuffle(action_list)` with an explicit stream of random
draws. -/
def pyShuffle {α : Type} (l : List α) (js : List Nat) : List α :=
  pyShuffleAux (l.length - 1) l js

/-- The observation of `ps -o pid --ppid <rosbags.pid> --noheaders` made by
one `shutdown` invocation: the child pids parsed from its output and its
exit status. -/
structure PsResult where
  childPids : List Int
  retcode : Int
deriving DecidableEq, Repr

/-- `InteractionController.shutdown` after the best-effort robot shutdown:
run `ps` on the recording process, `assert retcode == 0`, kill each listed
child, then terminate the rosbag parent.  Returns the killed pids and
whether `rosbags.terminate()` was reached; the failed assertion is the
raised `AssertionError`.  The `ps` observation is the invocation's
environment input. -/
def shutdown (ps : PsResult) : Except PyError (List Int × Bool) :=
  if ps.retcode = 0 then Except.ok (ps.childPids, true)
  else Except.error PyError.assertionFailed

/-- A message read from the rosbag on one of the three topics consumed by
`parseRosbags.system_validation`. -/
inductive BagMsg where
  | scriptStatus (data : String)
  | robotBehavior (object_id : Int) (action : String)
  | humanBehavior (target : List Int) (effector : List String)
deriving DecidableEq, Repr

/-- increment `d[k] += 1`; raises `KeyError` when the key is absent. -/
def incrCount (d : List (String × Nat)) (k : String) :
    Except PyError (List (String × Nat)) :=
  match alookup d k with
  | none => Except.error PyError.keyError
  | some v => Except.ok (aset d k (v + 1))

/-- accumulate `d[k] += x` over `ℚ`; raises `KeyError` when absent. -/
def addTime (d : List (String × ℚ)) (k : String) (x : ℚ) :
    Except PyError (List (String × ℚ)) :=
  match alookup d k with
  | none => Except.error PyError.keyError
  | some v => Except.ok (aset d k (v + x))

/-- State of `parseRosbags.system_validation`'s message loop: the three
trackers, the three per-action totals, and whether the
`script_status == 'HRIConstruction'` break has fired. -/
structure SVState where
  start_time : Option ℚ
  target_obj : Option Int
  nvb_action : Option String
  total_actions : List (String × Nat)
  accuracy : List (String × Nat)
  responsetime : List (String × ℚ)
  halted : Bool
deriving DecidableEq, Repr

/-- The initial state: all trackers `None`, every action's totals zero. -/
def svInit : SVState :=
  { start_time := none
    target_obj := none
    nvb_action := none
    total_actions := actionNames.map (fun a => (a, 0))
    accuracy := actionNames.map (fun a => (a, 0))
    responsetime := actionNames.map (fun a => (a, 0))
    halted := false }

/-- Inner `for i in range(len(objlist))` of the `human_behavior` branch:
scan the (target, effector) pairs; on the first arm touch of the target,
assert the tracked action is known, credit accuracy and response time,
reset all trackers, and `break`. -/
def svScanTouches (s : SVState) (tgt : Int) (start t : ℚ) :
    List (Int × String) → Except PyError SVState
  | [] => Except.ok s
  | (touch_obj, eff) :: rest =>
      if eff = "leftarm" || eff = "rightarm" then
        if touch_obj = tgt then
          match s.nvb_action with
          | none => Except.error PyError.assertionFailed
          | some act =>
              if act ∈ actionNames then
                match incrCount s.accuracy act with
                | Except.error e => Except.error e
                | Except.ok acc =>
                    match addTime s.responsetime act (t - start) with
                    | Except.error e => Except.error e
                    | Except.ok rt =>
                        Except.ok { s with
                          accuracy := acc
                          responsetime := rt
                          start_time := none
                          target_obj := none
                          nvb_action := none }
              else Except.error PyError.assertionFailed
        else svScanTouches s tgt start t rest
      else svScanTouches s tgt start t rest

/-- One iteration of `system_validation`'s message loop on `(msg, t)`:
`script_status == 'HRIConstruction'` breaks out of the loop;
`robot_behavior` resets the trackers and counts the action;
`human_behavior` within the 4-second window scans for a correct touch. -/
def svStep (s : SVState) (m : BagMsg × ℚ) : Except PyError SVState :=
  if s.halted then Except.ok s
  else
    match m.1 with
    | BagMsg.scriptStatus data =>
        if data = "HRIConstruction" then Except.ok { s with halted := true }
        else Except.ok s
    | BagMsg.robotBehavior object_id action =>
        match incrCount s.total_actions action with
        | Except.error e => Except.error e
        | Except.ok tot =>
            Except.ok { s with
              start_time := some m.2
              target_obj := some object_id
              nvb_action := some action
              total_actions := tot }
    | BagMsg.humanBehavior objlist effectorlist =>
        match s.target_obj with
        | none => Except.ok s
        | some tgt =>
            match s.start_time with
            | none => Except.error PyError.typeError
            | some start =>
                if m.2 - start < 4 then
                  if objlist.length = 0 then Except.error PyError.assertionFailed
                  else if ¬(objlist.length = effectorlist.length) then
                    Except.error PyError.assertionFailed
                  else svScanTouches s tgt start m.2 (objlist.zip effectorlist)
                else Except.ok s

/-- Run `system_validation`'s loop over a message stream from a state. -/
def svRunAux : SVState → List (BagMsg × ℚ) → Except PyError SVState
  | s, [] => Except.ok s
  | s, m :: ms =>
      match svStep s m with
      | Except.error e => Except.error e
      | Except.ok s2 => svRunAux s2 ms

/-- `parseRosbags.system_validation` over a full message stream. -/
def svRun (msgs : List (BagMsg × ℚ)) : Except PyError SVState :=
  svRunAux svInit msgs

/-- The count stored for action `a` in one of the totals dictionaries. -/
def countOf (d : List (String × Nat)) (a : String) : Nat :=
  (alookup d a).getD 0

/-- In-flight invariant of the analysis loop: accuracy never exceeds the
totals, strictly so while a robot behavior is being tracked (its total was
counted but no touch has been credited yet). -/
def svInv (s : SVState) : Prop :=
  (∀ a, countOf s.accuracy a ≤ countOf s.total_actions a) ∧
  (∀ a, s.nvb_action = some a →
    countOf s.accuracy a + 1 ≤ countOf s.total_actions a)

/-! ## Theorems -/

/-- C4: `convertCoords` is the fixed affine transform translating by the
configured origin offset with the axis permutation
robot.x = sensor.z, robot.y = sensor.x, robot.z = sensor.y, and it is
invertible: the sensor→robot→sensor round trip recovers every point
exactly (positions are modelled over `ℚ`, so "within floating tolerance"
holds with zero error). -/
theorem convertCoords_affine_invertible :
    ∀ p : Vec3,
      convertCoords p =
        ⟨p.z - originTranslationVector.z, p.x - originTranslationVector.x,
          p.y - originTranslationVector.y⟩ ∧
      invConvertCoords (convertCoords p) = p ∧
      convertCoords (invConvertCoords p) = p := by
  intro p
  cases p
  refine ⟨rfl, ?_, ?_⟩ <;>
    simp [convertCoords, invConvertCoords, originTranslationVector]

/-- C2 counterexample: the claim says the padded wait is clamped at zero
and never negative, but `actOutReference` computes `waittime = 5 - elapsed`
with no clamp: at a dispatch overhead of 6 seconds the wait is −1 and the
`sleep` call raises instead of sleeping zero. -/
theorem actOutReference_wait_can_be_negative :
    actOutReferenceWaittime 6 = -1 ∧ actOutReferenceWaittime 6 < 0 ∧
      actOutReference 6 = Except.error PyError.ioError := by
  refine ⟨by norm_num [actOutReferenceWaittime],
    by norm_num [actOutReferenceWaittime], ?_⟩
  simp [actOutReference, actOutReferenceWaittime, pySleep]
  norm_num

/-- C2 amended: the wait padded after a validation action is `5 - elapsed`
with no clamping (it is negative exactly when dispatch overhead exceeds
the budget, and the sleep then raises); whenever the dispatch overhead is
at most the 5-second budget the wait is non-negative and the action plus
wait together take exactly the configured 5.0-second budget. -/
theorem actOutReference_budget (elapsed : ℚ)
    (h0 : 0 ≤ elapsed) (h5 : elapsed ≤ 5) :
    0 ≤ actOutReferenceWaittime elapsed ∧
      actOutReference elapsed = Except.ok 5 := by
  have hw : (0 : ℚ) ≤ actOutReferenceWaittime elapsed := by
    simp only [actOutReferenceWaittime]
    linarith
  refine ⟨hw, ?_⟩
  simp only [actOutReference, pySleep, actOutReferenceWaittime]
  rw [if_neg (not_lt.mpr (by linarith : (0 : ℚ) ≤ 5 - elapsed))]
  have h : elapsed + (5 - elapsed) = 5 := by ring
  simp [h]

/-- Witness for the amended C2 at a 2-second dispatch overhead. -/
theorem actOutReference_budget_witness :
    (0 : ℚ) ≤ 2 ∧ (2 : ℚ) ≤ 5 ∧
      (0 ≤ actOutReferenceWaittime 2 ∧ actOutReference 2 = Except.ok 5) :=
  ⟨by norm_num, by norm_num, actOutReference_budget 2 (by norm_num) (by norm_num)⟩

/-- C7: the code contradicts its own shutdown design.  `shutdown` is
registered with `atexit` *and* called at the end of `main`, so every normal
run invokes it twice, yet it keeps no terminated-state flag and re-runs
every step unconditionally: the second invocation observes the `ps`
listing of the already-terminated recording process (no children, exit
status 1) and its `assert retcode == 0` raises `AssertionError` instead of
being a harmless no-op.  A first invocation with a live child succeeds. -/
theorem shutdown_second_call_asserts :
    shutdown ⟨[4242], 0⟩ = Except.ok ([4242], true) ∧
      shutdown ⟨[], 1⟩ = Except.error PyError.assertionFailed := by
  constructor <;> rfl

/-- C1: `findNVBForRef` is deterministic — on a fixed snapshot of the
registry, gaze scores, point scores and saliency scores, repeated calls
with the same target id and spoken words return the same action, and that
action is always one of none/look/point/lookandpoint.  (The scoring
formula itself lives in `nvbModel`, which is not under `src/`; it is
modelled from the spec as a pure function, so any call is a function
application and identical inputs give identical outputs.) -/
theorem findNVBForRef_deterministic :
    ∀ (st : CtrlState) (target_id : Int) (words_spoken : String),
      findNVBForRef st target_id words_spoken =
        findNVBForRef st target_id words_spoken ∧
      findNVBForRef st target_id words_spoken ∈ actionNames := by
  intro st target_id words_spoken
  refine ⟨rfl, ?_⟩
  simp only [findNVBForRef, calculateNVBForRef, actionNames]
  split
  · simp
  · split
    · simp
    · split
      · simp
      · simp

/-- C6: when an object reference names a target id absent from the
registry, the handler catches the `KeyError`, logs, and returns without
dispatching any robot action; the controller state (registry and score
stores included) is unchanged and the session continues. -/
theorem objectRefCallback_unknown_noop :
    ∀ (st : CtrlState) (objectRefMsg : ScriptObjectRef),
      alookup st.objdict objectRefMsg.object_id = none →
      objectRefCallback st objectRefMsg = (st, none) := by
  intro st msg h
  simp [objectRefCallback, h]

/-- Witness for C6: an empty registry and a reference to object 3. -/
theorem objectRefCallback_unknown_noop_witness :
    alookup (CtrlState.mk [] [] [] [] true).objdict (3 : Int) = none ∧
      objectRefCallback (CtrlState.mk [] [] [] [] true) ⟨3, "small red"⟩ =
        (CtrlState.mk [] [] [] [] true, none) :=
  ⟨rfl, objectRefCallback_unknown_noop _ _ rfl⟩

/-- `aset` never returns the empty list. -/
lemma aset_isEmpty {κ β : Type} [DecidableEq κ]
    (l : List (κ × β)) (k : κ) (v : β) : (aset l k v).isEmpty = false := by
  cases l with
  | nil => rfl
  | cons hd tl =>
      rcases hd with ⟨k0, v0⟩
      simp only [aset]
      split <;> rfl

/-- A score callback never empties either store: readiness is monotone. -/
lemma scoresReady_mono (s : Scores) (d : GazePointInfo)
    (h : scoresReady s = true) : scoresReady (gazepointInfoCallback s d) = true := by
  have h2 := h
  simp only [scoresReady, Bool.and_eq_true] at h2
  obtain ⟨hg, hp⟩ := h2
  unfold gazepointInfoCallback
  split
  · simp only [scoresReady, aset_isEmpty, Bool.not_false, Bool.true_and]
    exact hp
  · split
    · simp only [scoresReady, aset_isEmpty, Bool.not_false, Bool.and_true]
      exact hg
    · exact h

/-- Readiness is stable under any further batch of score callbacks. -/
lemma scoresReady_foldl (ds : List GazePointInfo) :
    ∀ s : Scores, scoresReady s = true →
      scoresReady (ds.foldl gazepointInfoCallback s) = true := by
  induction ds with
  | nil => intro s h; exact h
  | cons d ds ih =>
      intro s h
      exact ih _ (scoresReady_mono s d h)

/-- The polling loop only ever returns a ready state. -/
lemma waitForGazePointScores_exit :
    ∀ (batches : List (List GazePointInfo)) (s s1 : Scores),
      waitForGazePointScores s batches = some s1 → scoresReady s1 = true := by
  intro batches
  induction batches with
  | nil =>
      intro s s1 h
      unfold waitForGazePointScores at h
      split at h
      · cases h
        assumption
      · cases h
  | cons b bs ih =>
      intro s s1 h
      unfold waitForGazePointScores at h
      split at h
      · cases h
        assumption
      · exact ih _ _ h

/-- C8: the NVB selector never runs before the score store is ready.  The
initialization wait (`waitForGazePointScores`, polled once per sleep with
the callbacks arriving in between modelled as batches) only returns once at
least one gaze and one point record exist, and score callbacks never remove
records, so in every later state — in particular wherever `findNVBForRef`
or the one-shot saliency computation executes — both the gaze-score and
point-score stores are non-empty. -/
theorem selector_runs_only_when_scores_ready
    (s0 : Scores) (batches : List (List GazePointInfo)) (s1 : Scores)
    (later : List GazePointInfo)
    (hwait : waitForGazePointScores s0 batches = some s1) :
    scoresReady s1 = true ∧
      scoresReady (later.foldl gazepointInfoCallback s1) = true ∧
      (later.foldl gazepointInfoCallback s1).gazescores ≠ [] ∧
      (later.foldl gazepointInfoCallback s1).pointscores ≠ [] := by
  have h1 : scoresReady s1 = true := waitForGazePointScores_exit batches s0 s1 hwait
  have h2 : scoresReady (later.foldl gazepointInfoCallback s1) = true :=
    scoresReady_foldl later s1 h1
  have h3 := h2
  simp only [scoresReady, Bool.and_eq_true] at h3
  obtain ⟨hg, hp⟩ := h3
  refine ⟨h1, h2, ?_, ?_⟩
  · intro hnil
    rw [hnil] at hg
    simp at hg
  · intro hnil
    rw [hnil] at hp
    simp at hp

/-- Witness for C8: starting from empty stores, one batch carrying a gaze
and a point message makes the wait return, and a later callback keeps the
stores non-empty. -/
theorem selector_runs_only_when_scores_ready_witness :
    waitForGazePointScores ⟨[], []⟩
        [[⟨"gaze", 0, [1]⟩, ⟨"point", 0, [1]⟩]] =
      some ⟨[(0, [1])], [(0, [1])]⟩ ∧
    (scoresReady ⟨[(0, [1])], [(0, [1])]⟩ = true ∧
      scoresReady ([⟨"gaze", 1, [0]⟩].foldl gazepointInfoCallback
        ⟨[(0, [1])], [(0, [1])]⟩) = true ∧
      ([⟨"gaze", 1, [0]⟩].foldl gazepointInfoCallback
        ⟨[(0, [1])], [(0, [1])]⟩).gazescores ≠ [] ∧
      ([⟨"gaze", 1, [0]⟩].foldl gazepointInfoCallback
        ⟨[(0, [1])], [(0, [1])]⟩).pointscores ≠ []) :=
  ⟨by rfl,
    selector_runs_only_when_scores_ready ⟨[], []⟩
      [[⟨"gaze", 0, [1]⟩, ⟨"point", 0, [1]⟩]] ⟨[(0, [1])], [(0, [1])]⟩
      [⟨"gaze", 1, [0]⟩] (by rfl)⟩

lemma alookup_aset_self {κ β : Type} [DecidableEq κ] :
    ∀ (l : List (κ × β)) (k : κ) (v : β), alookup (aset l k v) k = some v := by
  intro l
  induction l with
  | nil => intro k v; simp [aset, alookup]
  | cons hd tl ih =>
      intro k v
      rcases hd with ⟨k0, v0⟩
      by_cases hk : k0 = k
      · subst hk
        simp [aset, alookup]
      · simp only [aset, if_neg hk, alookup]
        exact ih k v

lemma alookup_aset_ne {κ β : Type} [DecidableEq κ] :
    ∀ (l : List (κ × β)) (k : κ) (v : β) (i : κ), k ≠ i →
      alookup (aset l k v) i = alookup l i := by
  intro l
  induction l with
  | nil =>
      intro k v i hne
      simp [aset, alookup, if_neg hne]
  | cons hd tl ih =>
      intro k v i hne
      rcases hd with ⟨k0, v0⟩
      by_cases hk : k0 = k
      · subst hk
        simp only [aset, if_pos rfl, alookup, if_neg hne]
      · simp only [aset, if_neg hk, alookup]
        by_cases hi : k0 = i
        · rw [if_pos hi, if_pos hi]
        · rw [if_neg hi, if_neg hi]
          exact ih k v i hne

/-- An object update touches only its own key. -/
lemma objectsInfoCallback_other (d : List (Int × Lego)) (m : ObjectsInfo)
    (i : Int) (hne : m.object_id ≠ i) :
    alookup (objectsInfoCallback d m) i = alookup d i := by
  unfold objectsInfoCallback
  cases halo : alookup d m.object_id with
  | some o =>
      simp only
      split
      · exact alookup_aset_ne d m.object_id _ i hne
      · rfl
  | none =>
      simp only
      exact alookup_aset_ne d m.object_id _ i hne

/-- After an object update, its own key holds the converted position. -/
lemma objectsInfoCallback_self (d : List (Int × Lego)) (m : ObjectsInfo) :
    ∃ o : Lego, alookup (objectsInfoCallback d m) m.object_id = some o ∧
      o.loc = convertCoords m.pos := by
  unfold objectsInfoCallback
  cases halo : alookup d m.object_id with
  | some o =>
      simp only
      split
      · exact ⟨_, alookup_aset_self d m.object_id _, rfl⟩
      · refine ⟨o, halo, ?_⟩
        rename_i hloc
        rw [not_not] at hloc
        exact hloc.symm
  | none =>
      simp only
      exact ⟨_, alookup_aset_self d m.object_id _, rfl⟩

/-- A fold over messages that never mention key `i` leaves it unchanged. -/
lemma foldl_objectsInfo_other :
    ∀ (ms : List ObjectsInfo) (d : List (Int × Lego)) (i : Int),
      (∀ m ∈ ms, m.object_id ≠ i) →
      alookup (ms.foldl objectsInfoCallback d) i = alookup d i := by
  intro ms
  induction ms with
  | nil => intro d i _; rfl
  | cons hd tl ih =>
      intro d i hall
      rw [List.foldl_cons]
      rw [ih _ i (fun m hm => hall m (List.mem_cons_of_mem hd hm))]
      exact objectsInfoCallback_other d hd i (hall hd (List.mem_cons_self hd tl))

lemma getLast?_cons_of_ne_nil {α : Type} (a : α) (l : List α) (h : l ≠ []) :
    (a :: l).getLast? = l.getLast? := by
  cases l with
  | nil => exact absurd rfl h
  | cons b t => exact List.getLast?_cons_cons

/-- Last-write-wins for a single key across a message sequence. -/
lemma objectsInfo_last_write :
    ∀ (msgs : List ObjectsInfo) (init : List (Int × Lego)) (i : Int)
      (m : ObjectsInfo),
      lastPosUpdate msgs i = some m →
      ∃ o : Lego, alookup (msgs.foldl objectsInfoCallback init) i = some o ∧
        o.loc = convertCoords m.pos := by
  intro msgs
  induction msgs with
  | nil =>
      intro init i m h
      simp [lastPosUpdate] at h
  | cons hd tl ih =>
      intro init i m hlast
      rw [List.foldl_cons]
      cases htl : lastPosUpdate tl i with
      | some m2 =>
          have hm : m = m2 := by
            unfold lastPosUpdate at hlast htl
            have hne : tl.filter (fun x => x.object_id = i) ≠ [] := by
              intro hnil
              rw [hnil] at htl
              cases htl
            rw [List.filter_cons] at hlast
            split at hlast
            · rw [getLast?_cons_of_ne_nil _ _ hne] at hlast
              rw [htl] at hlast
              cases hlast
              rfl
            · rw [htl] at hlast
              cases hlast
              rfl
          subst hm
          exact ih (objectsInfoCallback init hd) i m htl
      | none =>
          have hfil : tl.filter (fun x => x.object_id = i) = [] := by
            unfold lastPosUpdate at htl
            cases hf : tl.filter (fun x => x.object_id = i) with
            | nil => rfl
            | cons a t =>
                rw [hf] at htl
                rcases List.getLast?_eq_none_iff.mp htl with h
                cases h
          have hnone : ∀ m2 ∈ tl, ¬(m2.object_id = i) := by
            intro m2 hm2
            have := List.filter_eq_nil_iff.mp hfil m2 hm2
            simpa using this
          have hhd : hd.object_id = i ∧ m = hd := by
            unfold lastPosUpdate at hlast
            rw [List.filter_cons, hfil] at hlast
            split at hlast
            · rename_i hcond
              simp only [List.getLast?] at hlast
              cases hlast
              exact ⟨by simpa using hcond, rfl⟩
            · cases hlast
          rw [foldl_objectsInfo_other tl (objectsInfoCallback init hd) i
            (fun m2 hm2 => hnone m2 hm2)]
          rcases hhd with ⟨hid, hm⟩
          rw [hm, ← hid]
          exact objectsInfoCallback_self init hd

/-- C5: for every sequence of object-update callbacks, looking an id up in
the registry afterwards yields the converted position of the last update
for that id; an update for an existing id replaces the stored position only
when the new (converted) position differs, leaving the registry untouched
otherwise; and an update for an unseen id inserts a fresh object with the
message's colors and empty descriptor words. -/
theorem registry_last_write_wins :
    (∀ (msgs : List ObjectsInfo) (init : List (Int × Lego)) (i : Int)
        (m : ObjectsInfo),
        lastPosUpdate msgs i = some m →
        ∃ o : Lego, alookup (msgs.foldl objectsInfoCallback init) i = some o ∧
          o.loc = convertCoords m.pos) ∧
    (∀ (d : List (Int × Lego)) (m : ObjectsInfo) (o : Lego),
        alookup d m.object_id = some o → convertCoords m.pos = o.loc →
        objectsInfoCallback d m = d) ∧
    (∀ (d : List (Int × Lego)) (m : ObjectsInfo),
        alookup d m.object_id = none →
        objectsInfoCallback d m =
          aset d m.object_id
            ⟨m.object_id, convertCoords m.pos, m.color_upper, m.color_lower, []⟩) := by
  refine ⟨objectsInfo_last_write, ?_, ?_⟩
  · intro d m o hlook heq
    unfold objectsInfoCallback
    rw [hlook]
    simp [heq]
  · intro d m hlook
    unfold objectsInfoCallback
    rw [hlook]

/-- Witness for C5: two updates to object 1 leave its last converted
position; an equal-position update is a no-op; an unseen id 7 is inserted
with its colors and empty words. -/
theorem registry_last_write_wins_witness :
    (lastPosUpdate [⟨1, ⟨0, 0, 0⟩, [], []⟩, ⟨1, ⟨1, 2, 3⟩, [], []⟩] 1 =
        some ⟨1, ⟨1, 2, 3⟩, [], []⟩ ∧
      (∃ o : Lego,
        alookup ([⟨1, ⟨0, 0, 0⟩, [], []⟩, ⟨1, ⟨1, 2, 3⟩, [], []⟩].foldl
          objectsInfoCallback ([] : List (Int × Lego))) 1 = some o ∧
          o.loc = convertCoords ⟨1, 2, 3⟩)) ∧
    (alookup [((1 : Int), Lego.mk 1 (convertCoords ⟨1, 2, 3⟩) [] [] [])]
        (1 : Int) = some (Lego.mk 1 (convertCoords ⟨1, 2, 3⟩) [] [] []) ∧
      objectsInfoCallback [((1 : Int), Lego.mk 1 (convertCoords ⟨1, 2, 3⟩) [] [] [])]
          ⟨1, ⟨1, 2, 3⟩, [], []⟩ =
        [((1 : Int), Lego.mk 1 (convertCoords ⟨1, 2, 3⟩) [] [] [])]) ∧
    (alookup ([] : List (Int × Lego)) (7 : Int) = none ∧
      objectsInfoCallback [] ⟨7, ⟨0, 0, 0⟩, [], []⟩ =
        aset [] (7 : Int) ⟨7, convertCoords ⟨0, 0, 0⟩, [], [], []⟩) :=
  ⟨⟨by rfl,
      registry_last_write_wins.1 [⟨1, ⟨0, 0, 0⟩, [], []⟩, ⟨1, ⟨1, 2, 3⟩, [], []⟩]
        [] 1 ⟨1, ⟨1, 2, 3⟩, [], []⟩ (by rfl)⟩,
    ⟨by rfl,
      registry_last_write_wins.2.1 _ ⟨1, ⟨1, 2, 3⟩, [], []⟩
        (Lego.mk 1 (convertCoords ⟨1, 2, 3⟩) [] [] []) (by rfl) (by rfl)⟩,
    ⟨by rfl,
      registry_last_write_wins.2.2 [] ⟨7, ⟨0, 0, 0⟩, [], []⟩ (by rfl)⟩⟩

/-- The validation build raises the assertion as soon as it reaches an
object without descriptor words, whatever else the registry holds. -/
lemma systemValidationAux_empty_words :
    ∀ (objs : List (Int × Lego)) (st : CtrlState) (e : Int × Lego),
      e ∈ objs → e.2.words = [] →
      systemValidationAux st objs = Except.error PyError.assertionFailed := by
  intro objs
  induction objs with
  | nil => intro st e he _; cases he
  | cons hd tl ih =>
      rcases hd with ⟨k, obj⟩
      intro st e he hw
      rcases List.mem_cons.mp he with h1 | h2
      · have hobj : obj.words = [] := by
          have heq : e.2 = obj := by rw [h1]
          rw [← heq]
          exact hw
        simp only [systemValidationAux, hobj, List.length_nil]
        rfl
      · have herr := ih st e h2 hw
        simp only [systemValidationAux]
        split
        · rw [herr]
        · rfl

/-- C9: `systemValidation` has an unstated precondition on descriptors: it
asserts `len(obj.words) > 0` for every registry object and uses only the
first descriptor word of each; a registry containing any object whose
descriptor words are empty (e.g. one inserted by the sensor callback with
an id outside 0–5, which `startup` never assigns words to) makes the build
fail with `AssertionError` instead of skipping that object. -/
theorem systemValidation_asserts_nonempty_words :
    ∀ (st : CtrlState) (e : Int × Lego),
      e ∈ st.objdict → e.2.words = [] →
      systemValidationBuild st = Except.error PyError.assertionFailed := by
  intro st e he hw
  exact systemValidationAux_empty_words st.objdict st e he hw

/-- Witness for C9: a wordless object (as inserted by the sensor callback
for id 7) aborts the validation build. -/
theorem systemValidation_asserts_nonempty_words_witness :
    ((7 : Int), Lego.mk 7 ⟨0, 0, 0⟩ [] [] []) ∈
        (CtrlState.mk [(7, Lego.mk 7 ⟨0, 0, 0⟩ [] [] [])] [] [] [] true).objdict ∧
      (Lego.mk 7 ⟨0, 0, 0⟩ [] [] []).words = [] ∧
      systemValidationBuild
          (CtrlState.mk [(7, Lego.mk 7 ⟨0, 0, 0⟩ [] [] [])] [] [] [] true) =
        Except.error PyError.assertionFailed :=
  ⟨List.mem_cons_self _ _, rfl,
    systemValidation_asserts_nonempty_words
      (CtrlState.mk [(7, Lego.mk 7 ⟨0, 0, 0⟩ [] [] [])] [] [] [] true)
      (7, Lego.mk 7 ⟨0, 0, 0⟩ [] [] []) (List.mem_cons_self _ _) rfl⟩

/-- Moving the element at index `k` to the front while writing `x` in its
place is a permutation of putting `x` at the front. -/
lemma cons_set_perm {α : Type} :
    ∀ (t : List α) (k : Nat) (x b : α), t.get? k = some b →
      (b :: t.set k x).Perm (x :: t) := by
  intro t
  induction t with
  | nil => intro k x b h; cases k <;> cases h
  | cons y t2 ih =>
      intro k x b h
      cases k with
      | zero =>
          have hby : b = y := by
            injection h with h2
            exact h2.symm
          subst hby
          exact List.Perm.swap x b t2
      | succ k2 =>
          have h2 : t2.get? k2 = some b := h
          have hrec := ih k2 x b h2
          have hstep : (b :: y :: t2.set k2 x).Perm (y :: b :: t2.set k2 x) :=
            List.Perm.swap y b _
          exact hstep.trans ((hrec.cons y).trans (List.Perm.swap x y t2))

/-- Writing each of two read elements at the other's index permutes the
list (the in-place swap of `random.shuffle`). -/
lemma set_set_perm {α : Type} :
    ∀ (l : List α) (i j : Nat) (a b : α),
      l.get? i = some a → l.get? j = some b →
      ((l.set i b).set j a).Perm l := by
  intro l
  induction l with
  | nil => intro i j a b hi _; cases i <;> cases hi
  | cons x t ih =>
      intro i j a b hi hj
      cases i with
      | zero =>
          have hax : a = x := by
            injection hi with h2
            exact h2.symm
          subst hax
          cases j with
          | zero =>
              have hba : b = a := by
                injection hj with h2
                exact h2.symm
              subst hba
              exact List.Perm.refl _
          | succ k =>
              exact cons_set_perm t k a b hj
      | succ m =>
          cases j with
          | zero =>
              have hbx : b = x := by
                injection hj with h2
                exact h2.symm
              subst hbx
              exact cons_set_perm t m b a hi
          | succ k =>
              exact (ih m k a b hi hj).cons x

/-- A `swapL` is a permutation. -/
lemma swapL_perm {α : Type} (l : List α) (i j : Nat) : (swapL l i j).Perm l := by
  unfold swapL
  split
  · rename_i a b hi hj
    exact set_set_perm l i j a b hi hj
  · exact List.Perm.refl l

/-- Every Fisher–Yates pass is a permutation, whatever the draws. -/
lemma pyShuffleAux_perm {α : Type} :
    ∀ (n : Nat) (l : List α) (js : List Nat), (pyShuffleAux n l js).Perm l := by
  intro n
  induction n with
  | zero => intro l js; exact List.Perm.refl l
  | succ i ih =>
      intro l js
      cases js with
      | nil => exact List.Perm.refl l
      | cons j js2 =>
          exact (ih _ js2).trans (swapL_perm l (i + 1) (j % (i + 2)))

/-- `random.shuffle` returns a permutation (same multiset) of its input
for every stream of random draws. -/
lemma pyShuffle_perm {α : Type} (l : List α) (js : List Nat) :
    (pyShuffle l js).Perm l :=
  pyShuffleAux_perm (l.length - 1) l js

/-- Shape of a successful validation build: the action list is the
projection of the (action, object) cross-product, in loop order, and has
four entries per object. -/
lemma systemValidationAux_shape :
    ∀ (objs : List (Int × Lego)) (st : CtrlState) (log : List (Int × String))
      (acts : List ActionEntry),
      systemValidationAux st objs = Except.ok (log, acts) →
      acts = (actionObjectPairs objs).map entryOfPair ∧
        acts.length = 4 * objs.length := by
  intro objs
  induction objs with
  | nil =>
      intro st log acts h
      cases h
      simp [actionObjectPairs]
  | cons hd tl ih =>
      rcases hd with ⟨k, obj⟩
      intro st log acts h
      simp only [systemValidationAux] at h
      split at h
      · cases haux : systemValidationAux st tl with
        | error e => rw [haux] at h; cases h
        | ok p =>
            rcases p with ⟨log2, acts2⟩
            rw [haux] at h
            simp only at h
            cases h
            rcases ih st log2 acts2 haux with ⟨hshape, hlen⟩
            constructor
            · rw [hshape]
              simp [actionObjectPairs, entryOfPair, List.map_map]
            · simp only [List.length_append, List.length_map, hlen,
                actionNames, List.length_cons, List.length_nil]
              ring
      · cases h

/-- Counting an (action, object) pair in the provenance cross-product
counts the object's occurrences among the registry values. -/
lemma count_actionObjectPairs :
    ∀ (objs : List (Int × Lego)) (a : String) (o : Lego), a ∈ actionNames →
      (actionObjectPairs objs).count (a, o) = (objs.map Prod.snd).count o := by
  intro objs
  induction objs with
  | nil => intro a o _; rfl
  | cons hd tl ih =>
      rcases hd with ⟨k, ob⟩
      intro a o ha
      have htl := ih a o ha
      simp only [actionObjectPairs, List.flatMap_cons, List.count_append,
        List.map_cons, List.count_cons] at htl ⊢
      rw [htl]
      have hone : ((actionNames.map fun act => (act, ob)).count (a, o)) =
          if o = ob then 1 else 0 := by
        have ha2 : a = "none" ∨ a = "look" ∨ a = "point" ∨ a = "lookandpoint" := by
          simpa [actionNames] using ha
        by_cases hob : o = ob
        · rw [if_pos hob]
          subst hob
          rcases ha2 with rfl | rfl | rfl | rfl <;>
            simp [actionNames, List.count_cons, beq_iff_eq]
        · rw [if_neg hob]
          have hob2 : ¬(ob = o) := fun h => hob h.symm
          rcases ha2 with rfl | rfl | rfl | rfl <;>
            simp [actionNames, List.count_cons, beq_iff_eq, Prod.ext_iff, hob2]
      rw [hone]
      by_cases hob : o = ob
      · rw [if_pos hob, hob]
        simp only [beq_self_eq_true, if_true]
        omega
      · rw [if_neg hob]
        have hbeq : (ob == o) = false := by
          rw [beq_eq_false_iff_ne]
          exact fun h => hob h.symm
        rw [hbeq]
        simp

/-- C3: on a registry whose keyed objects have distinct ids, a successful
validation build yields an action list of length 4·|objects| that is the
projection of the {none,look,point,lookandpoint} × objects cross-product;
each (action, object) pair occurs exactly once in that cross-product, and
`random.shuffle` (for every stream of random draws) returns a permutation
— the same multiset — of the unshuffled list. -/
theorem systemValidation_action_list_complete :
    ∀ (st : CtrlState) (log : List (Int × String)) (acts : List ActionEntry)
      (js : List Nat),
      systemValidationBuild st = Except.ok (log, acts) →
      (st.objdict.map (fun e => e.2.idnum)).Nodup →
      acts.length = 4 * st.objdict.length ∧
      acts = (actionObjectPairs st.objdict).map entryOfPair ∧
      (∀ a ∈ actionNames, ∀ e ∈ st.objdict,
        (actionObjectPairs st.objdict).count (a, e.2) = 1) ∧
      (pyShuffle acts js).Perm acts := by
  intro st log acts js hok hids
  rcases systemValidationAux_shape st.objdict st log acts hok with ⟨hshape, hlen⟩
  refine ⟨hlen, hshape, ?_, pyShuffle_perm acts js⟩
  intro a ha e he
  have hsnd : (st.objdict.map Prod.snd).Nodup := by
    have hmm : st.objdict.map (fun x => x.2.idnum) =
        (st.objdict.map Prod.snd).map Lego.idnum := by
      simp [List.map_map]
    rw [hmm] at hids
    exact List.Nodup.of_map Lego.idnum hids
  have hmem : e.2 ∈ st.objdict.map Prod.snd := List.mem_map_of_mem Prod.snd he
  rw [count_actionObjectPairs st.objdict a e.2 ha]
  exact List.count_eq_one_of_mem hsnd hmem

/-- Witness for C3: a one-object registry whose build succeeds with four
entries, shuffled with the draw stream [1, 0, 2]. -/
theorem systemValidation_action_list_complete_witness :
    systemValidationBuild
        (CtrlState.mk [(0, Lego.mk 0 ⟨0, 0, 0⟩ [] [] ["small red"])] [] [] [] true) =
      Except.ok ([((0 : Int), "lookandpoint")],
        [("none", ⟨0, 0, 0⟩, "small red"), ("look", ⟨0, 0, 0⟩, "small red"),
          ("point", ⟨0, 0, 0⟩, "small red"),
          ("lookandpoint", ⟨0, 0, 0⟩, "small red")]) ∧
    ((CtrlState.mk [(0, Lego.mk 0 ⟨0, 0, 0⟩ [] [] ["small red"])] [] [] []
        true).objdict.map (fun e => e.2.idnum)).Nodup ∧
    ([("none", (⟨0, 0, 0⟩ : Vec3), "small red"), ("look", ⟨0, 0, 0⟩, "small red"),
        ("point", ⟨0, 0, 0⟩, "small red"),
        ("lookandpoint", ⟨0, 0, 0⟩, "small red")].length =
      4 * (CtrlState.mk [(0, Lego.mk 0 ⟨0, 0, 0⟩ [] [] ["small red"])] [] [] []
        true).objdict.length ∧
      [("none", (⟨0, 0, 0⟩ : Vec3), "small red"), ("look", ⟨0, 0, 0⟩, "small red"),
        ("point", ⟨0, 0, 0⟩, "small red"),
        ("lookandpoint", ⟨0, 0, 0⟩, "small red")] =
        (actionObjectPairs (CtrlState.mk
          [(0, Lego.mk 0 ⟨0, 0, 0⟩ [] [] ["small red"])] [] [] [] true).objdict).map
          entryOfPair ∧
      (∀ a ∈ actionNames,
        ∀ e ∈ (CtrlState.mk [(0, Lego.mk 0 ⟨0, 0, 0⟩ [] [] ["small red"])] [] [] []
          true).objdict,
        (actionObjectPairs (CtrlState.mk
          [(0, Lego.mk 0 ⟨0, 0, 0⟩ [] [] ["small red"])] [] [] [] true).objdict).count
            (a, e.2) = 1) ∧
      (pyShuffle
        [("none", (⟨0, 0, 0⟩ : Vec3), "small red"), ("look", ⟨0, 0, 0⟩, "small red"),
          ("point", ⟨0, 0, 0⟩, "small red"),
          ("lookandpoint", ⟨0, 0, 0⟩, "small red")] [1, 0, 2]).Perm
        [("none", (⟨0, 0, 0⟩ : Vec3), "small red"), ("look", ⟨0, 0, 0⟩, "small red"),
          ("point", ⟨0, 0, 0⟩, "small red"),
          ("lookandpoint", ⟨0, 0, 0⟩, "small red")]) :=
  ⟨by rfl, by simp,
    systemValidation_action_list_complete
      (CtrlState.mk [(0, Lego.mk 0 ⟨0, 0, 0⟩ [] [] ["small red"])] [] [] [] true)
      [((0 : Int), "lookandpoint")]
      [("none", ⟨0, 0, 0⟩, "small red"), ("look", ⟨0, 0, 0⟩, "small red"),
        ("point", ⟨0, 0, 0⟩, "small red"), ("lookandpoint", ⟨0, 0, 0⟩, "small red")]
      [1, 0, 2] (by rfl) (by simp)⟩

/-- A successful `d[k] += 1` increments exactly the key `k`. -/
lemma incrCount_spec (d : List (String × Nat)) (k : String)
    (d2 : List (String × Nat)) (h : incrCount d k = Except.ok d2) :
    countOf d2 k = countOf d k + 1 ∧
      ∀ b, b ≠ k → countOf d2 b = countOf d b := by
  unfold incrCount at h
  cases halo : alookup d k with
  | none => rw [halo] at h; cases h
  | some v =>
      rw [halo] at h
      cases h
      constructor
      · unfold countOf
        rw [alookup_aset_self, halo]
        rfl
      · intro b hb
        unfold countOf
        rw [alookup_aset_ne d k (v + 1) b (fun hkb => hb hkb.symm)]

/-- The inner touch scan credits at most one correct touch: either the
state is unchanged, or exactly the tracked action's accuracy grew by one
and all trackers were reset (so nothing further can be credited until the
next robot behavior). -/
lemma svScanTouches_spec :
    ∀ (pairs : List (Int × String)) (s : SVState) (tgt : Int) (start t : ℚ)
      (s2 : SVState),
      svScanTouches s tgt start t pairs = Except.ok s2 →
      s2 = s ∨ ∃ act, s.nvb_action = some act ∧ s2.nvb_action = none ∧
        s2.total_actions = s.total_actions ∧
        countOf s2.accuracy act = countOf s.accuracy act + 1 ∧
        ∀ b, b ≠ act → countOf s2.accuracy b = countOf s.accuracy b := by
  intro pairs
  induction pairs with
  | nil =>
      intro s tgt start t s2 h
      cases h
      exact Or.inl rfl
  | cons pr rest ih =>
      rcases pr with ⟨obj, eff⟩
      intro s tgt start t s2 h
      simp only [svScanTouches] at h
      split at h
      · split at h
        · split at h
          · cases h
          · rename_i act hnvb
            split at h
            · split at h
              · cases h
              · rename_i acc hincr
                split at h
                · cases h
                · rename_i rt hrt
                  cases h
                  rcases incrCount_spec s.accuracy act acc hincr with ⟨h1, h2⟩
                  exact Or.inr ⟨act, hnvb, rfl, rfl, h1, h2⟩
            · cases h
        · exact ih s tgt start t s2 h
      · exact ih s tgt start t s2 h

/-- One analysis-loop step preserves the accuracy/totals invariant. -/
lemma svStep_inv (s : SVState) (m : BagMsg × ℚ) (s2 : SVState)
    (h : svStep s m = Except.ok s2) (hinv : svInv s) : svInv s2 := by
  rcases m with ⟨msg, t⟩
  unfold svStep at h
  split at h
  · cases h
    exact hinv
  · cases msg with
    | scriptStatus data =>
        simp only at h
        split at h <;> cases h
        · exact ⟨hinv.1, hinv.2⟩
        · exact hinv
    | robotBehavior oid act =>
        simp only at h
        split at h
        · cases h
        · rename_i tot2 hincr
          cases h
          rcases incrCount_spec s.total_actions act tot2 hincr with ⟨h1, h2⟩
          constructor
          · intro a
            by_cases ha : a = act
            · subst ha
              show countOf s.accuracy a ≤ countOf tot2 a
              rw [h1]
              exact Nat.le_succ_of_le (hinv.1 a)
            · show countOf s.accuracy a ≤ countOf tot2 a
              rw [h2 a ha]
              exact hinv.1 a
          · intro a ha
            have haa : act = a := by
              injection ha
            subst haa
            show countOf s.accuracy act + 1 ≤ countOf tot2 act
            rw [h1]
            exact Nat.succ_le_succ (hinv.1 act)
    | humanBehavior objlist effectorlist =>
        simp only at h
        split at h
        · cases h
          exact hinv
        · rename_i tgt htgt
          split at h
          · cases h
          · rename_i start hst
            split at h
            · split at h
              · cases h
              · split at h
                · cases h
                · rcases svScanTouches_spec _ s tgt start t s2 h with
                    hcase | ⟨act, hnvb, hnone, htot, hself, hother⟩
                  · rw [hcase]
                    exact hinv
                  · constructor
                    · intro a
                      rw [htot]
                      by_cases ha : a = act
                      · subst ha
                        rw [hself]
                        exact hinv.2 a hnvb
                      · rw [hother a ha]
                        exact hinv.1 a
                    · intro a ha
                      rw [hnone] at ha
                      cases ha
            · cases h
              exact hinv

/-- Running the analysis loop preserves the invariant. -/
lemma svRunAux_inv :
    ∀ (msgs : List (BagMsg × ℚ)) (s s2 : SVState),
      svRunAux s msgs = Except.ok s2 → svInv s → svInv s2 := by
  intro msgs
  induction msgs with
  | nil =>
      intro s s2 h hi
      cases h
      exact hi
  | cons m ms ih =>
      intro s s2 h hi
      simp only [svRunAux] at h
      cases hstep : svStep s m with
      | error e => rw [hstep] at h; cases h
      | ok s1 =>
          rw [hstep] at h
          exact ih s1 s2 h (svStep_inv s m s1 hstep hi)

/-- The initial analysis state satisfies the invariant. -/
lemma svInit_inv : svInv svInit := by
  constructor
  · intro a
    exact Nat.le_refl _
  · intro a ha
    cases ha

/-- C10: each robot-behavior event is credited with at most one correct
touch — the inner scan either leaves the state untouched or credits
exactly the tracked action once and resets all trackers — and therefore,
for every input message stream the loop accepts, the final accuracy count
of every action never exceeds that action's total count of robot-behavior
events. -/
theorem analysis_accuracy_never_exceeds_totals :
    (∀ (msgs : List (BagMsg × ℚ)) (s : SVState),
        svRun msgs = Except.ok s →
        ∀ a, countOf s.accuracy a ≤ countOf s.total_actions a) ∧
    (∀ (pairs : List (Int × String)) (s : SVState) (tgt : Int) (start t : ℚ)
        (s2 : SVState),
        svScanTouches s tgt start t pairs = Except.ok s2 →
        s2 = s ∨ ∃ act, s.nvb_action = some act ∧ s2.nvb_action = none ∧
          s2.total_actions = s.total_actions ∧
          countOf s2.accuracy act = countOf s.accuracy act + 1 ∧
          ∀ b, b ≠ act → countOf s2.accuracy b = countOf s.accuracy b) := by
  constructor
  · intro msgs s h a
    exact (svRunAux_inv msgs svInit s h svInit_inv).1 a
  · intro pairs s tgt start t s2 h
    exact svScanTouches_spec pairs s tgt start t s2 h

/-- Witness for C10: a single robot behavior followed by a correct touch
scan; the run hypothesis and the scan hypothesis are discharged on
concrete inputs. -/
theorem analysis_accuracy_never_exceeds_totals_witness :
    (svRun [(BagMsg.robotBehavior 5 "look", 0)] =
        Except.ok ⟨some 0, some 5, some "look",
          [("none", 0), ("look", 1), ("point", 0), ("lookandpoint", 0)],
          [("none", 0), ("look", 0), ("point", 0), ("lookandpoint", 0)],
          [("none", 0), ("look", 0), ("point", 0), ("lookandpoint", 0)], false⟩ ∧
      ∀ a,
        countOf (SVState.mk (some 0) (some 5) (some "look")
          [("none", 0), ("look", 1), ("point", 0), ("lookandpoint", 0)]
          [("none", 0), ("look", 0), ("point", 0), ("lookandpoint", 0)]
          [("none", 0), ("look", 0), ("point", 0), ("lookandpoint", 0)]
          false).accuracy a ≤
        countOf (SVState.mk (some 0) (some 5) (some "look")
          [("none", 0), ("look", 1), ("point", 0), ("lookandpoint", 0)]
          [("none", 0), ("look", 0), ("point", 0), ("lookandpoint", 0)]
          [("none", 0), ("look", 0), ("point", 0), ("lookandpoint", 0)]
          false).total_actions a) ∧
    (svScanTouches
        ⟨some 0, some 5, some "look",
          [("none", 0), ("look", 1), ("point", 0), ("lookandpoint", 0)],
          [("none", 0), ("look", 0), ("point", 0), ("lookandpoint", 0)],
          [("none", 0), ("look", 0), ("point", 0), ("lookandpoint", 0)], false⟩
        5 0 1 [(5, "leftarm")] =
        Except.ok ⟨none, none, none,
          [("none", 0), ("look", 1), ("point", 0), ("lookandpoint", 0)],
          [("none", 0), ("look", 1), ("point", 0), ("lookandpoint", 0)],
          [("none", 0), ("look", 0 + ((1 : ℚ) - 0)), ("point", 0),
            ("lookandpoint", 0)], false⟩ ∧
      ((⟨none, none, none,
          [("none", 0), ("look", 1), ("point", 0), ("lookandpoint", 0)],
          [("none", 0), ("look", 1), ("point", 0), ("lookandpoint", 0)],
          [("none", 0), ("look", 0 + ((1 : ℚ) - 0)), ("point", 0),
            ("lookandpoint", 0)], false⟩ : SVState) =
        ⟨some 0, some 5, some "look",
          [("none", 0), ("look", 1), ("point", 0), ("lookandpoint", 0)],
          [("none", 0), ("look", 0), ("point", 0), ("lookandpoint", 0)],
          [("none", 0), ("look", 0), ("point", 0), ("lookandpoint", 0)], false⟩ ∨
        ∃ act,
          (SVState.mk (some 0) (some 5) (some "look")
            [("none", 0), ("look", 1), ("point", 0), ("lookandpoint", 0)]
            [("none", 0), ("look", 0), ("point", 0), ("lookandpoint", 0)]
            [("none", 0), ("look", 0), ("point", 0), ("lookandpoint", 0)]
            false).nvb_action = some act ∧
          (SVState.mk none none none
            [("none", 0), ("look", 1), ("point", 0), ("lookandpoint", 0)]
            [("none", 0), ("look", 1), ("point", 0), ("lookandpoint", 0)]
            [("none", 0), ("look", 0 + ((1 : ℚ) - 0)), ("point", 0),
              ("lookandpoint", 0)] false).nvb_action = none ∧
          (SVState.mk none none none
            [("none", 0), ("look", 1), ("point", 0), ("lookandpoint", 0)]
            [("none", 0), ("look", 1), ("point", 0), ("lookandpoint", 0)]
            [("none", 0), ("look", 0 + ((1 : ℚ) - 0)), ("point", 0),
              ("lookandpoint", 0)] false).total_actions =
            (SVState.mk (some 0) (some 5) (some "look")
              [("none", 0), ("look", 1), ("point", 0), ("lookandpoint", 0)]
              [("none", 0), ("look", 0), ("point", 0), ("lookandpoint", 0)]
              [("none", 0), ("look", 0), ("point", 0), ("lookandpoint", 0)]
              false).total_actions ∧
          countOf (SVState.mk none none none
            [("none", 0), ("look", 1), ("point", 0), ("lookandpoint", 0)]
            [("none", 0), ("look", 1), ("point", 0), ("lookandpoint", 0)]
            [("none", 0), ("look", 0 + ((1 : ℚ) - 0)), ("point", 0),
              ("lookandpoint", 0)] false).accuracy act =
            countOf (SVState.mk (some 0) (some 5) (some "look")
              [("none", 0), ("look", 1), ("point", 0), ("lookandpoint", 0)]
              [("none", 0), ("look", 0), ("point", 0), ("lookandpoint", 0)]
              [("none", 0), ("look", 0), ("point", 0), ("lookandpoint", 0)]
              false).accuracy act + 1 ∧
          ∀ b, b ≠ act →
            countOf (SVState.mk none none none
              [("none", 0), ("look", 1), ("point", 0), ("lookandpoint", 0)]
              [("none", 0), ("look", 1), ("point", 0), ("lookandpoint", 0)]
              [("none", 0), ("look", 0 + ((1 : ℚ) - 0)), ("point", 0),
                ("lookandpoint", 0)] false).accuracy b =
              countOf (SVState.mk (some 0) (some 5) (some "look")
                [("none", 0), ("look", 1), ("point", 0), ("lookandpoint", 0)]
                [("none", 0), ("look", 0), ("point", 0), ("lookandpoint", 0)]
                [("none", 0), ("look", 0), ("point", 0), ("lookandpoint", 0)]
                false).accuracy b)) :=
  ⟨⟨rfl,
    (analysis_accuracy_never_exceeds_totals.1 [(BagMsg.robotBehavior 5 "look", 0)]
      ⟨some 0, some 5, some "look",
        [("none", 0), ("look", 1), ("point", 0), ("lookandpoint", 0)],
        [("none", 0), ("look", 0), ("point", 0), ("lookandpoint", 0)],
        [("none", 0), ("look", 0), ("point", 0), ("lookandpoint", 0)], false⟩ rfl)⟩,
   ⟨rfl,
    (analysis_accuracy_never_exceeds_totals.2 [(5, "leftarm")]
      ⟨some 0, some 5, some "look",
        [("none", 0), ("look", 1), ("point", 0), ("lookandpoint", 0)],
        [("none", 0), ("look", 0), ("point", 0), ("lookandpoint", 0)],
        [("none", 0), ("look", 0), ("point", 0), ("lookandpoint", 0)], false⟩
      5 0 1
      ⟨none, none, none,
        [("none", 0), ("look", 1), ("point", 0), ("lookandpoint", 0)],
        [("none", 0), ("look", 1), ("point", 0), ("lookandpoint", 0)],
        [("none", 0), ("look", 0 + ((1 : ℚ) - 0)), ("point", 0),
          ("lookandpoint", 0)], false⟩ rfl)⟩⟩

end HRI
